import Mathlib

/-!
Verification of the PSCbot core subsystems against their implementation:
the conversation state manager (utils/state-manager.js), the vessel
directory (utils/vessel-lookup.js), the per-user rate limiter and the
dialogue router (netlify/functions/whatsapp-webhook.js).

JavaScript code is shallowly embedded: strings are Lean Strings, JS
objects appearing as state payloads are association lists of JSON-like
values, Date.now() timestamps are naturals (milliseconds), Map objects
are association lists with insertion-order-preserving update, and every
fallible operation returns an Option.  Functions that mutate a module
level Map are modelled by explicit store passing: they take the store
and return the result together with the new store.  All definitions are
total, which models the documented never-throw behavior of the source.
-/

/-! ### JS string primitives -/

/-- ASCII lower-casing of one character, as JS toLowerCase acts on the
ASCII range used by this program. -/
def lowerChar (c : Char) : Char :=
  if 65 ≤ c.toNat && c.toNat ≤ 90 then Char.ofNat (c.toNat + 32) else c

/-- ASCII upper-casing of one character, as JS toUpperCase acts on the
ASCII range used by this program. -/
def upperChar (c : Char) : Char :=
  if 97 ≤ c.toNat && c.toNat ≤ 122 then Char.ofNat (c.toNat - 32) else c

/-- JS String.prototype.toLowerCase restricted to ASCII. -/
def jsToLower (s : String) : String := ⟨s.data.map lowerChar⟩

/-- JS String.prototype.toUpperCase restricted to ASCII. -/
def jsToUpper (s : String) : String := ⟨s.data.map upperChar⟩

/-- Whitespace characters removed by JS String.prototype.trim
(the ones occurring in this program's inputs). -/
def isWsChar (c : Char) : Bool :=
  c == ' ' || c == '\t' || c == '\n' || c == '\r'

/-- JS String.prototype.trim. -/
def jsTrim (s : String) : String :=
  ⟨((s.data.dropWhile isWsChar).reverse.dropWhile isWsChar).reverse⟩

/-- JS String.prototype.includes: does the second string occur as a
contiguous substring of the first. -/
def jsIncludes (s sub : String) : Bool :=
  (List.range (s.data.length + 1)).any fun i => sub.data.isPrefixOf (s.data.drop i)

/-! ### JS values and Map embedding -/

/-- JSON-like JS values stored in conversation-state payloads. -/
inductive JVal where
  | str (s : String)
  | num (n : Nat)
  | obj (fields : List (String × JVal))

/-- A JS object used as a state payload: an association list of fields. -/
abbrev JObj := List (String × JVal)

/-- JS Map.prototype.set: update in place if the key exists (keeping
insertion order), otherwise append the new entry at the end. -/
def mapSet {β : Type} : List (String × β) → String → β → List (String × β)
  | [], k, v => [(k, v)]
  | (k', v') :: rest, k, v =>
      if k' = k then (k, v) :: rest else (k', v') :: mapSet rest k v

/-- JS Map.prototype.delete (the removal part): drop the entry with the
given key. -/
def mapDelete {β : Type} (m : List (String × β)) (k : String) : List (String × β) :=
  m.filter fun p => !(p.1 == k)

/-! ### Conversation state manager (utils/state-manager.js) -/

/-- State expiry duration: 5 minutes (STATE_EXPIRY_MS in the source). -/
def STATE_EXPIRY_MS : Nat := 300000

/-- normalizePhoneNumber: empty (or non-string, unrepresentable here)
input yields the empty string, otherwise all non-digit characters are
removed (replace of the \D class by the empty string). -/
def normalizePhoneNumber (phoneNumber : String) : String :=
  if phoneNumber = "" then ""
  else ⟨phoneNumber.data.filter Char.isDigit⟩

/-- A stored conversation state: the caller's payload spread into an
object together with the stamped timestamp and expiresAt fields
(the spread in saveState puts the stamps after the payload, so they
override any payload field of the same name). -/
structure Session where
  data : JObj
  timestamp : Nat
  expiresAt : Nat

/-- Property lookup on the flattened stored state object: the stamped
timestamp and expiresAt fields override payload fields of those names,
every other key reads the payload. -/
def Session.lookup (s : Session) (k : String) : Option JVal :=
  if k = "timestamp" then some (JVal.num s.timestamp)
  else if k = "expiresAt" then some (JVal.num s.expiresAt)
  else List.lookup k s.data

/-- The module-level stateStore Map. -/
abbrev StateStore := List (String × Session)

/-- saveState: reject empty and non-normalizable phone numbers, else
store the stamped state under the normalized phone, overwriting any
previous entry.  Returns the JS boolean result and the new store. -/
def saveState (store : StateStore) (now : Nat) (phoneNumber : String) (stateData : JObj) :
    Bool × StateStore :=
  if phoneNumber = "" then (false, store)
  else
    let normalizedPhone := normalizePhoneNumber phoneNumber
    if normalizedPhone = "" then (false, store)
    else (true, mapSet store normalizedPhone ⟨stateData, now, now + STATE_EXPIRY_MS⟩)

/-- getState: null for empty and non-normalizable phone numbers and for
missing entries; an entry with now strictly past its expiresAt is
deleted and null is returned; otherwise the stored state is returned
unchanged and the store is untouched. -/
def getState (store : StateStore) (now : Nat) (phoneNumber : String) :
    Option Session × StateStore :=
  if phoneNumber = "" then (none, store)
  else
    let normalizedPhone := normalizePhoneNumber phoneNumber
    if normalizedPhone = "" then (none, store)
    else
      match List.lookup normalizedPhone store with
      | none => (none, store)
      | some state =>
          if state.expiresAt < now then (none, mapDelete store normalizedPhone)
          else (some state, store)

/-- clearState: false for empty and non-normalizable phone numbers,
otherwise delete the entry and report whether one existed. -/
def clearState (store : StateStore) (phoneNumber : String) : Bool × StateStore :=
  if phoneNumber = "" then (false, store)
  else
    let normalizedPhone := normalizePhoneNumber phoneNumber
    if normalizedPhone = "" then (false, store)
    else ((List.lookup normalizedPhone store).isSome, mapDelete store normalizedPhone)

/-- cleanupExpiredStates: remove every entry whose expiresAt is strictly
in the past, returning the number removed and the new store (the source
collects the expired keys and deletes them one by one; on a
duplicate-free store that is the same as filtering). -/
def cleanupExpiredStates (now : Nat) (store : StateStore) : Nat × StateStore :=
  ((store.filter fun p => decide (p.2.expiresAt < now)).length,
   store.filter fun p => !decide (p.2.expiresAt < now))

/-! ### Vessel directory (utils/vessel-lookup.js) -/

/-- One vessel record of the directory: canonical name and IMO. -/
structure VesselRecord where
  name : String
  imo : String
deriving DecidableEq

/-- The built-in fallback directory DEFAULT_VESSELS. -/
def DEFAULT_VESSELS : List VesselRecord :=
  [⟨"GCL YAMUNA", "9481219"⟩,
   ⟨"GCL TAPI", "9481659"⟩,
   ⟨"GCL GANGA", "9481697"⟩,
   ⟨"GCL SABARMATI", "9481661"⟩]

/-- One row of the Levenshtein DP table: given the second string, the
current character of the first string, the tail of the previous row,
the already computed left neighbour and the diagonal neighbour, produce
the rest of the current row.  Each cell is
min(deletion, insertion, substitution) exactly as in the source. -/
def levRowGo (x : Char) : List Char → List Nat → Nat → Nat → List Nat
  | [], _, _, _ => []
  | _ :: _, [], _, _ => []
  | y :: ys, up :: ups, left, diag =>
      let c := Nat.min (up + 1) (Nat.min (left + 1) (diag + (if x = y then 0 else 1)))
      c :: levRowGo x ys ups c up

/-- Advance the DP by one row (one character of the first string). -/
def levStep (b : List Char) (acc : List Nat × Nat) (x : Char) : List Nat × Nat :=
  match acc with
  | (prev, i) =>
    match prev with
    | [] => ([], i + 1)
    | p0 :: rest => ((i + 1) :: levRowGo x b rest (i + 1) p0, i + 1)

/-- The classic dynamic-programming Levenshtein distance of the inner
helper of getVesselByName: dp[0][j] = j, dp[i][0] = i, and
dp[i][j] = min(dp[i-1][j]+1, dp[i][j-1]+1, dp[i-1][j-1]+cost); the
result is dp[m][n]. -/
def levDistance (a b : List Char) : Nat :=
  ((a.foldl (levStep b) (List.range (b.length + 1), 0)).1).getD b.length 0

/-- One iteration of the fuzzy-match loop of getVesselByName: keep the
candidate with the strictly smallest distance seen so far (so the first
minimum wins ties); the accumulator is none while no candidate has been
seen (best = null, bestDist = Infinity). -/
def fuzzyStep {α : Type} (f : α → Nat) (acc : Option (α × Nat)) (v : α) : Option (α × Nat) :=
  match acc with
  | none => some (v, f v)
  | some (b, bd) => if f v < bd then some (v, f v) else some (b, bd)

/-- The fuzzy-match loop of getVesselByName over the whole directory. -/
def fuzzyLoop {α : Type} (f : α → Nat) (vs : List α) : Option (α × Nat) :=
  vs.foldl (fuzzyStep f) none

/-- getVesselByName (the variant with the fuzzy fallback): guard empty
input, normalize by trim and uppercase, guard the empty normalized
query, then exact match, then bidirectional substring containment, then
the Levenshtein loop accepting the best candidate when its distance is
at most 2. -/
def getVesselByName (vessels : List VesselRecord) (name : String) : Option VesselRecord :=
  if name = "" then none
  else
    let searchName := jsToUpper (jsTrim name)
    if searchName = "" then none
    else
      match vessels.find? (fun v => jsToUpper v.name == searchName) with
      | some v => some v
      | none =>
        match vessels.find? (fun v =>
            jsIncludes (jsToUpper v.name) searchName ||
            jsIncludes searchName (jsToUpper v.name)) with
        | some v => some v
        | none =>
          match fuzzyLoop (fun v => levDistance searchName.data (jsToUpper v.name).data) vessels with
          | some (best, bestDist) => if bestDist ≤ 2 then some best else none
          | none => none

/-- getVesselByIMO: guard empty input, trim, guard the empty trimmed
string, then a linear scan for exact string equality of the IMO. -/
def getVesselByIMO (vessels : List VesselRecord) (imo : String) : Option VesselRecord :=
  if imo = "" then none
  else
    let imoStr := jsTrim imo
    if imoStr = "" then none
    else vessels.find? fun v => v.imo == imoStr

/-- Minimum of the distances assigned by f to the list elements, none
for the empty list; used to state the specification side of the fuzzy
fallback. -/
def minDist {α : Type} (f : α → Nat) : List α → Option Nat
  | [] => none
  | v :: vs =>
      some (match minDist f vs with
            | none => f v
            | some m => Nat.min (f v) m)

/-- Helper for relating the source fuzzy loop to its specification:
the best candidate reachable from an initial candidate, preferring a
later element only on a strictly smaller distance. -/
def bestFrom {α : Type} (f : α → Nat) (b : α) : List α → α
  | [] => b
  | v :: vs => bestFrom f (if f v < f b then v else b) vs

/-- findByName as the specification words it: normalize the query by
trimming and uppercasing (empty or invalid input is not-found), return
an exact match against the uppercased canonical names, otherwise the
first record related to the query by substring containment in either
direction, otherwise compute the Levenshtein distance to every
canonical name and return the first record attaining the minimum
distance provided that distance is at most 2, otherwise not-found. -/
def findByNameSpec (vessels : List VesselRecord) (name : String) : Option VesselRecord :=
  if name = "" then none
  else
    let searchName := jsToUpper (jsTrim name)
    if searchName = "" then none
    else
      match vessels.find? (fun v => jsToUpper v.name == searchName) with
      | some v => some v
      | none =>
        match vessels.find? (fun v =>
            jsIncludes (jsToUpper v.name) searchName ||
            jsIncludes searchName (jsToUpper v.name)) with
        | some v => some v
        | none =>
          match minDist (fun v => levDistance searchName.data (jsToUpper v.name).data) vessels with
          | some m =>
              if m ≤ 2 then
                vessels.find? fun v =>
                  levDistance searchName.data (jsToUpper v.name).data == m
              else none
          | none => none

/-- The JS regex test ^\d+$ : at least one character and every
character a decimal digit. -/
def imoRegexTest (s : String) : Bool :=
  !s.data.isEmpty && s.data.all Char.isDigit

/-- The vessel-resolution step of handleRiskScoreIntent: an all-digit
trimmed identifier is resolved through getVesselByIMO on the trimmed
string, anything else through getVesselByName on the raw identifier. -/
def resolveVesselIdentifier (vessels : List VesselRecord) (vesselIdentifier : String) :
    Option VesselRecord :=
  if imoRegexTest (jsTrim vesselIdentifier) then
    getVesselByIMO vessels (jsTrim vesselIdentifier)
  else getVesselByName vessels vesselIdentifier

/-! ### Rate limiter (netlify/functions/whatsapp-webhook.js) -/

/-- RATE_LIMIT_WINDOW_MS: one hour. -/
def RATE_LIMIT_WINDOW_MS : Nat := 3600000

/-- RATE_LIMIT_MAX_REQUESTS: 50 requests per window per user. -/
def RATE_LIMIT_MAX_REQUESTS : Nat := 50

/-- One entry of the rateLimitStore Map. -/
structure RateRecord where
  count : Nat
  resetAt : Nat
deriving DecidableEq

/-- The module-level rateLimitStore Map, keyed by the raw phone number
of the webhook request. -/
abbrev RateStore := List (String × RateRecord)

/-- The result object of checkRateLimit. -/
structure RateResult where
  allowed : Bool
  remaining : Nat
  resetAt : Nat
deriving DecidableEq

/-- checkRateLimit: fetch the record (a fresh count-0 record expiring
one window from now when absent), reset it when the window has passed,
compute remaining = max(0, cap - count) and allowed = count < cap
before any increment, increment only when allowed, and write the record
back. -/
def checkRateLimit (rates : RateStore) (now : Nat) (phoneNumber : String) :
    RateResult × RateStore :=
  let userLimit0 := (List.lookup phoneNumber rates).getD ⟨0, now + RATE_LIMIT_WINDOW_MS⟩
  let userLimit1 :=
    if userLimit0.resetAt < now then (⟨0, now + RATE_LIMIT_WINDOW_MS⟩ : RateRecord)
    else userLimit0
  let remaining := RATE_LIMIT_MAX_REQUESTS - userLimit1.count
  let allowed := decide (userLimit1.count < RATE_LIMIT_MAX_REQUESTS)
  let userLimit2 :=
    if allowed then (⟨userLimit1.count + 1, userLimit1.resetAt⟩ : RateRecord)
    else userLimit1
  (⟨allowed, remaining, userLimit2.resetAt⟩, mapSet rates phoneNumber userLimit2)

/-- Repeated checkRateLimit calls for the same key at the given list of
times, returning the final store and the list of allowed flags. -/
def iterateChecks (rates : RateStore) (phoneNumber : String) : List Nat → RateStore × List Bool
  | [] => (rates, [])
  | t :: ts =>
      let r := checkRateLimit rates t phoneNumber
      let rest := iterateChecks r.2 phoneNumber ts
      (rest.1, r.1.allowed :: rest.2)

/-! ### Dialogue router (netlify/functions/whatsapp-webhook.js) -/

/-- isStateExpired of the webhook module: a state with a missing (zero)
timestamp is expired, otherwise it is expired when its age exceeds
STATE_EXPIRY_MS. -/
def isStateExpired (now : Nat) (state : Session) : Bool :=
  if state.timestamp = 0 then true
  else decide (STATE_EXPIRY_MS < now - state.timestamp)

/-- The single observable outcome of the first webhook handler variant:
either a fixed reply or a dispatch to a collaborator (the follow-up
handlers and the new-query pipeline are external to the router). -/
inductive ActionA where
  | replyEmptyPrompt
  | replyMissingSender
  | dispatchDownload (fromNumber : String) (state : Session)
  | dispatchEmail (fromNumber : String) (state : Session)
  | processNewQuery (body fromNumber : String)

/-- The webhook handler variant that clears the session in the router
itself (whatsapp-webhook.js, first variant): guard the empty message
and missing sender, look up the session, and on an existing session
classify the lowercased trimmed text — a download selection clears the
session and dispatches the Excel handler with the stored state, an
email selection clears the session and dispatches the email handler
with the stored state, anything else clears the session and reprocesses
the message as a brand-new query; without a session the message is a
new query. -/
def handleMessageA (store : StateStore) (now : Nat) (body fromNumber : String) :
    ActionA × StateStore :=
  if jsTrim body = "" then (.replyEmptyPrompt, store)
  else if fromNumber = "" then (.replyMissingSender, store)
  else
    match getState store now fromNumber with
    | (some state, store1) =>
        let normalizedMessage := jsTrim (jsToLower body)
        let isDownload := normalizedMessage == "1" || normalizedMessage == "download" ||
          jsIncludes normalizedMessage "download"
        let isEmail := normalizedMessage == "2" || normalizedMessage == "email" ||
          jsIncludes normalizedMessage "email"
        if isDownload then
          (.dispatchDownload fromNumber state, (clearState store1 fromNumber).2)
        else if isEmail then
          (.dispatchEmail fromNumber state, (clearState store1 fromNumber).2)
        else
          (.processNewQuery body fromNumber, (clearState store1 fromNumber).2)
    | (none, store1) => (.processNewQuery body fromNumber, store1)

/-- The shared mutable per-user state of the rate-limited webhook
handler variant: the rate limiter Map and the conversation state Map. -/
structure SysB where
  rates : RateStore
  states : StateStore

/-- The single observable outcome of the rate-limited webhook handler
variant. -/
inductive ActionB where
  | replyEmptyPrompt
  | replyMissingSender
  | replyRateLimit
  | replySessionExpired
  | dispatchDownload (fromNumber : String) (state : Session)
  | dispatchEmail (fromNumber : String) (state : Session)
  | processNewQuery (body fromNumber : String)

/-- The rate-limited webhook handler variant (whatsapp-webhook.js,
second variant): guard the empty message and missing sender, run the
rate-limit check on the raw sender and stop on denial before touching
any session state, then look up the session; an existing session that
isStateExpired reports expiry and is cleared, an active session
dispatches the download or email follow-up handler with the stored
state (clearing there is left to those handlers in this variant) or,
for unrecognized text, is cleared and the message reprocessed as a new
query; without a session the message is a new query. -/
def handleMessageB (sys : SysB) (now : Nat) (body fromNumber : String) : ActionB × SysB :=
  if jsTrim body = "" then (.replyEmptyPrompt, sys)
  else if fromNumber = "" then (.replyMissingSender, sys)
  else
    match checkRateLimit sys.rates now fromNumber with
    | (rateLimit, rates1) =>
      if rateLimit.allowed then
        match getState sys.states now fromNumber with
        | (some state, states1) =>
            if isStateExpired now state then
              (.replySessionExpired, ⟨rates1, (clearState states1 fromNumber).2⟩)
            else
              let normalizedMessage := jsTrim (jsToLower body)
              let isDownload := normalizedMessage == "1" || normalizedMessage == "download" ||
                jsIncludes normalizedMessage "download"
              let isEmail := normalizedMessage == "2" || normalizedMessage == "email" ||
                jsIncludes normalizedMessage "email"
              if isDownload then
                (.dispatchDownload fromNumber state, ⟨rates1, states1⟩)
              else if isEmail then
                (.dispatchEmail fromNumber state, ⟨rates1, states1⟩)
              else
                (.processNewQuery body fromNumber, ⟨rates1, (clearState states1 fromNumber).2⟩)
        | (none, states1) => (.processNewQuery body fromNumber, ⟨rates1, states1⟩)
      else (.replyRateLimit, ⟨rates1, sys.states⟩)

/-! ### Helper lemmas about the Map embedding -/

theorem normalizePhoneNumber_eq (s : String) :
    normalizePhoneNumber s = ⟨s.data.filter Char.isDigit⟩ := by
  unfold normalizePhoneNumber
  split
  · next h => subst h; rfl
  · rfl

theorem lookup_mapSet_eq {β : Type} (m : List (String × β)) (k : String) (v : β) :
    List.lookup k (mapSet m k v) = some v := by
  induction m with
  | nil => simp [mapSet, List.lookup]
  | cons p rest ih =>
      rcases p with ⟨k', v'⟩
      by_cases h : k' = k
      · subst h
        simp [mapSet, List.lookup]
      · simp [mapSet, h, List.lookup, beq_eq_false_iff_ne.mpr (Ne.symm h), ih]

theorem lookup_mapSet_ne {β : Type} (m : List (String × β)) (k k' : String) (v : β)
    (h : k' ≠ k) : List.lookup k' (mapSet m k v) = List.lookup k' m := by
  induction m with
  | nil => simp [mapSet, List.lookup, beq_eq_false_iff_ne.mpr h]
  | cons p rest ih =>
      rcases p with ⟨k'', v''⟩
      by_cases hk : k'' = k
      · subst hk
        simp [mapSet, List.lookup, beq_eq_false_iff_ne.mpr h]
      · simp [mapSet, hk, List.lookup, ih]

theorem mapSet_self {β : Type} (m : List (String × β)) (k : String) (v : β)
    (h : List.lookup k m = some v) : mapSet m k v = m := by
  induction m with
  | nil => simp [List.lookup] at h
  | cons p rest ih =>
      rcases p with ⟨k', v'⟩
      by_cases hk : k' = k
      · subst hk
        simp [List.lookup] at h
        simp [mapSet, h]
      · simp [List.lookup, beq_eq_false_iff_ne.mpr (Ne.symm hk)] at h
        simp [mapSet, hk, ih h]

theorem mapSet_mapSet {β : Type} (m : List (String × β)) (k : String) (v w : β) :
    mapSet (mapSet m k v) k w = mapSet m k w := by
  induction m with
  | nil => simp [mapSet]
  | cons p rest ih =>
      rcases p with ⟨k', v'⟩
      by_cases hk : k' = k
      · subst hk
        simp [mapSet]
      · simp [mapSet, hk, ih]

theorem lookup_mapDelete_eq {β : Type} (m : List (String × β)) (k : String) :
    List.lookup k (mapDelete m k) = none := by
  induction m with
  | nil => simp [mapDelete]
  | cons p rest ih =>
      rcases p with ⟨k', v'⟩
      by_cases hk : k' = k
      · subst hk
        simpa [mapDelete] using ih
      · simp only [mapDelete, List.filter] at ih ⊢
        simp [beq_eq_false_iff_ne.mpr hk, List.lookup,
          beq_eq_false_iff_ne.mpr (Ne.symm hk), ih]

theorem lookup_mapDelete_ne {β : Type} (m : List (String × β)) (k k' : String)
    (h : k' ≠ k) : List.lookup k' (mapDelete m k) = List.lookup k' m := by
  induction m with
  | nil => simp [mapDelete]
  | cons p rest ih =>
      rcases p with ⟨k'', v''⟩
      by_cases hk : k'' = k
      · subst hk
        simp only [mapDelete, List.filter, beq_self_eq_true] at ih ⊢
        simp [List.lookup, beq_eq_false_iff_ne.mpr h, ih]
      · simp only [mapDelete, List.filter, beq_eq_false_iff_ne.mpr hk] at ih ⊢
        by_cases hk' : k'' = k'
        · subst hk'
          simp [List.lookup, ih]
        · simp [List.lookup, beq_eq_false_iff_ne.mpr (Ne.symm hk'), ih]

/-! ### Claim C8: owner-key normalization ignores formatting -/

/-- C8: any two phone-number strings with the same digit characters in
the same order (that is, differing only in non-digit formatting
characters such as plus signs, spaces and dashes) normalize to the
identical owner key, so both address the same per-user session slot. -/
theorem normalizePhoneNumber_formatting (s1 s2 : String)
    (h : s1.data.filter Char.isDigit = s2.data.filter Char.isDigit) :
    normalizePhoneNumber s1 = normalizePhoneNumber s2 := by
  rw [normalizePhoneNumber_eq, normalizePhoneNumber_eq, h]

/-- Witness for C8 at the spec's own example pair. -/
theorem normalizePhoneNumber_formatting_witness :
    "+1 234-567-8900".data.filter Char.isDigit = "12345678900".data.filter Char.isDigit ∧
    normalizePhoneNumber "+1 234-567-8900" = normalizePhoneNumber "12345678900" :=
  ⟨by decide, normalizePhoneNumber_formatting "+1 234-567-8900" "12345678900" (by decide)⟩

/-! ### Claim C9: directory lookups on empty input -/

/-- C9: getVesselByName and getVesselByIMO return not-found for empty
and whitespace-only input (the trimmed string is empty).  Both are
total Lean functions, which embeds the never-throw contract; the
non-string guard of the source is unrepresentable over typed strings
and also yields null there. -/
theorem vesselLookup_empty_input (vessels : List VesselRecord) (s : String)
    (h : jsTrim s = "") :
    getVesselByName vessels s = none ∧ getVesselByIMO vessels s = none := by
  unfold getVesselByName getVesselByIMO
  by_cases he : s = "" <;>
    simp [he, h, show jsToUpper "" = "" from rfl]

/-- Witness for C9 at a whitespace-only input. -/
theorem vesselLookup_empty_input_witness :
    jsTrim "   " = "" ∧
    getVesselByName DEFAULT_VESSELS "   " = none ∧
    getVesselByIMO DEFAULT_VESSELS "   " = none :=
  ⟨by decide, vesselLookup_empty_input DEFAULT_VESSELS "   " (by decide)⟩

/-! ### Claim C10: state manager rejects keys that normalize to nothing -/

/-- C10: for a phone number containing no digit characters (including
the empty string; the non-string case is unrepresentable over typed
strings and follows the same guard in the source), saveState returns
false and leaves the store unchanged, getState returns null without
touching the store, and clearState returns false without removing
anything. -/
theorem stateManager_digitless_phone (store : StateStore) (now : Nat) (ph : String)
    (p : JObj) (h : ∀ c ∈ ph.data, c.isDigit = false) :
    saveState store now ph p = (false, store) ∧
    getState store now ph = (none, store) ∧
    clearState store ph = (false, store) := by
  have hn : normalizePhoneNumber ph = "" := by
    rw [normalizePhoneNumber_eq]
    have hf : ph.data.filter Char.isDigit = [] :=
      List.filter_eq_nil_iff.mpr (by intro a ha; simp [h a ha])
    rw [hf]
  unfold saveState getState clearState
  by_cases he : ph = "" <;> simp [he, hn]

/-- Witness for C10 at a digit-free phone number. -/
theorem stateManager_digitless_phone_witness :
    (∀ c ∈ "+-+ abc".data, c.isDigit = false) ∧
    saveState [] 0 "+-+ abc" [] = (false, []) ∧
    getState [] 0 "+-+ abc" = (none, []) ∧
    clearState [] "+-+ abc" = (false, []) :=
  ⟨by decide, stateManager_digitless_phone [] 0 "+-+ abc" [] (by decide)⟩

/-! ### Claim C7: all-digit identifiers resolve by IMO, others by name -/

/-- C7: the vessel-resolution step of handleRiskScoreIntent sends a
trimmed identifier matching the regex of one-or-more digits to
getVesselByIMO (on the trimmed string) and never to getVesselByName,
and sends every other identifier to getVesselByName (on the raw
string). -/
theorem resolveVesselIdentifier_routing (vessels : List VesselRecord) (id : String) :
    ((jsTrim id).data ≠ [] → (∀ c ∈ (jsTrim id).data, c.isDigit = true) →
        resolveVesselIdentifier vessels id = getVesselByIMO vessels (jsTrim id)) ∧
    (((jsTrim id).data = [] ∨ ∃ c ∈ (jsTrim id).data, c.isDigit = false) →
        resolveVesselIdentifier vessels id = getVesselByName vessels id) := by
  constructor
  · intro h1 h2
    have ht : imoRegexTest (jsTrim id) = true := by
      unfold imoRegexTest
      have ha : (jsTrim id).data.all Char.isDigit = true := List.all_eq_true.mpr h2
      have hb : (jsTrim id).data.isEmpty = false := by
        cases hd : (jsTrim id).data with
        | nil => exact absurd hd h1
        | cons x xs => rfl
      simp [ha, hb]
    unfold resolveVesselIdentifier
    simp [ht]
  · intro h
    have ht : imoRegexTest (jsTrim id) = false := by
      unfold imoRegexTest
      rcases h with h | ⟨c, hc, hcd⟩
      · simp [List.isEmpty_iff, h]
      · cases hall : (jsTrim id).data.all Char.isDigit with
        | false => simp [hall]
        | true =>
            have hd := List.all_eq_true.mp hall c hc
            rw [hcd] at hd
            cases hd
    unfold resolveVesselIdentifier
    simp [ht]

/-- Witness for C7 at the spec's scenario identifier 9481219, which
resolves through the IMO scan to GCL YAMUNA. -/
theorem resolveVesselIdentifier_routing_witness :
    resolveVesselIdentifier DEFAULT_VESSELS "9481219" =
      getVesselByIMO DEFAULT_VESSELS (jsTrim "9481219") ∧
    getVesselByIMO DEFAULT_VESSELS (jsTrim "9481219") =
      some ⟨"GCL YAMUNA", "9481219"⟩ :=
  ⟨(resolveVesselIdentifier_routing DEFAULT_VESSELS "9481219").1 (by decide) (by decide),
   by decide⟩

/-! ### Claim C2: save/get TTL round trip -/

/-- C2: after saveState at time tSave, a getState at tSave + t with
t below the TTL returns the stored state — whose fields outside the
stamped timestamp and expiresAt metadata are exactly the saved payload,
unchanged — and leaves the store untouched (a read is not a "touch", so
it cannot refresh the TTL); a getState with t beyond the TTL returns
not-found.  The phone number must carry at least one digit, else
saveState stores nothing. -/
theorem saveState_getState_ttl (store : StateStore) (ph : String) (p : JObj)
    (tSave t : Nat) (hph : normalizePhoneNumber ph ≠ "") :
    (saveState store tSave ph p).1 = true ∧
    (t < STATE_EXPIRY_MS →
      (getState (saveState store tSave ph p).2 (tSave + t) ph).1 =
          some ⟨p, tSave, tSave + STATE_EXPIRY_MS⟩ ∧
      (getState (saveState store tSave ph p).2 (tSave + t) ph).2 =
          (saveState store tSave ph p).2) ∧
    (STATE_EXPIRY_MS < t →
      (getState (saveState store tSave ph p).2 (tSave + t) ph).1 = none) ∧
    (∀ k, k ≠ "timestamp" → k ≠ "expiresAt" →
      Session.lookup ⟨p, tSave, tSave + STATE_EXPIRY_MS⟩ k = List.lookup k p) := by
  have hne : ph ≠ "" := by
    intro he
    apply hph
    rw [he]
    rfl
  have hsave : saveState store tSave ph p =
      (true, mapSet store (normalizePhoneNumber ph) ⟨p, tSave, tSave + STATE_EXPIRY_MS⟩) := by
    unfold saveState
    simp [hne, hph]
  have hlook : List.lookup (normalizePhoneNumber ph)
      (mapSet store (normalizePhoneNumber ph) ⟨p, tSave, tSave + STATE_EXPIRY_MS⟩) =
      some ⟨p, tSave, tSave + STATE_EXPIRY_MS⟩ :=
    lookup_mapSet_eq store (normalizePhoneNumber ph) ⟨p, tSave, tSave + STATE_EXPIRY_MS⟩
  refine ⟨by rw [hsave], ?_, ?_, ?_⟩
  · intro hlt
    have hno : ¬ tSave + STATE_EXPIRY_MS < tSave + t := by omega
    rw [hsave]
    unfold getState
    simp [hne, hph, hlook, hno]
  · intro hgt
    have hyes : tSave + STATE_EXPIRY_MS < tSave + t := by omega
    rw [hsave]
    unfold getState
    simp [hne, hph, hlook, hyes]
  · intro k hk1 hk2
    unfold Session.lookup
    simp [hk1, hk2]

/-- Witness for C2: a fresh read at the moment of saving returns the
stamped state with the payload intact. -/
theorem saveState_getState_ttl_witness :
    (saveState [] 1000 "15551234567" [("intent", JVal.str "recommendations")]).1 = true ∧
    (getState (saveState [] 1000 "15551234567"
        [("intent", JVal.str "recommendations")]).2 (1000 + 0) "15551234567").1 =
      some ⟨[("intent", JVal.str "recommendations")], 1000, 1000 + STATE_EXPIRY_MS⟩ := by
  have h := saveState_getState_ttl [] "15551234567"
    [("intent", JVal.str "recommendations")] 1000 0 (by decide)
  exact ⟨h.1, (h.2.1 (by decide)).1⟩

/-! ### Claim C5: expired sessions are invisible and swept -/

/-- C5: an expired session is never returned to any caller (a
successful getState implies the entry had not expired); a getState on
an expired entry behaves exactly like the no-session case — it returns
none — and deletes the entry; and cleanupExpiredStates keeps an entry
of the store if and only if its expiry has not passed, inventing no new
entries (unexpired entries survive untouched). -/
theorem sessionStore_expiry_invariant :
    (∀ (store : StateStore) (now : Nat) (ph : String) (st : Session),
        (getState store now ph).1 = some st → ¬ st.expiresAt < now) ∧
    (∀ (store : StateStore) (now : Nat) (ph : String) (st : Session),
        List.lookup (normalizePhoneNumber ph) store = some st →
        ph ≠ "" → normalizePhoneNumber ph ≠ "" → st.expiresAt < now →
        getState store now ph = (none, mapDelete store (normalizePhoneNumber ph)) ∧
        List.lookup (normalizePhoneNumber ph) (getState store now ph).2 = none) ∧
    (∀ (store : StateStore) (now : Nat) (e : String × Session), e ∈ store →
        (e ∈ (cleanupExpiredStates now store).2 ↔ ¬ e.2.expiresAt < now)) ∧
    (∀ (store : StateStore) (now : Nat) (e : String × Session),
        e ∈ (cleanupExpiredStates now store).2 → e ∈ store) := by
  refine ⟨?_, ?_, ?_, ?_⟩
  · intro store now ph st h
    unfold getState at h
    by_cases h1 : ph = ""
    · simp [h1] at h
    · by_cases h2 : normalizePhoneNumber ph = ""
      · simp [h1, h2] at h
      · simp only [h1, h2, if_neg, ite_false] at h
        cases hl : List.lookup (normalizePhoneNumber ph) store with
        | none => simp [hl] at h
        | some s =>
            rw [hl] at h
            by_cases hex : s.expiresAt < now
            · simp [hex] at h
            · simp [hex] at h
              rw [← h]
              exact hex
  · intro store now ph st hl hne hph hex
    have hget : getState store now ph = (none, mapDelete store (normalizePhoneNumber ph)) := by
      unfold getState
      simp [hne, hph, hl, hex]
    refine ⟨hget, ?_⟩
    rw [hget]
    exact lookup_mapDelete_eq store (normalizePhoneNumber ph)
  · intro store now e he
    unfold cleanupExpiredStates
    simp [List.mem_filter, he]
  · intro store now e he
    unfold cleanupExpiredStates at he
    exact (List.mem_filter.mp he).1

/-- Witness for C5: a concrete expired entry is invisible to getState
and removed by it. -/
theorem sessionStore_expiry_invariant_witness :
    getState [("123", ⟨[], 5, 10⟩)] 20 "123" = (none, []) ∧
    List.lookup "123" (getState [("123", ⟨[], 5, 10⟩)] 20 "123").2 = none := by
  have h := sessionStore_expiry_invariant.2.1 [("123", ⟨[], 5, 10⟩)] 20 "123"
    ⟨[], 5, 10⟩ (by rfl) (by decide) (by decide) (by decide)
  exact ⟨h.1, h.2⟩

/-! ### Claim C3: fixed-window rate limiting -/

theorem iterateChecks_allowed (k : String) (ts : List Nat) :
    ∀ (rates : RateStore) (c r : Nat),
    List.lookup k rates = some ⟨c, r⟩ →
    (∀ t ∈ ts, t ≤ r) →
    c + ts.length ≤ RATE_LIMIT_MAX_REQUESTS →
    iterateChecks rates k ts =
      (mapSet rates k ⟨c + ts.length, r⟩, List.replicate ts.length true) := by
  induction ts with
  | nil =>
      intro rates c r hl hb hc
      simp [iterateChecks, mapSet_self rates k ⟨c, r⟩ hl]
  | cons t ts ih =>
      intro rates c r hl hb hc
      have ht : t ≤ r := hb t (by simp)
      have hcc : c < RATE_LIMIT_MAX_REQUESTS := by
        simp [List.length_cons] at hc
        omega
      have hstep : checkRateLimit rates t k =
          (⟨true, RATE_LIMIT_MAX_REQUESTS - c, r⟩, mapSet rates k ⟨c + 1, r⟩) := by
        unfold checkRateLimit
        have hno : ¬ r < t := by omega
        simp [hl, hno, hcc]
      have hrest := ih (mapSet rates k ⟨c + 1, r⟩) (c + 1) r
        (lookup_mapSet_eq rates k ⟨c + 1, r⟩)
        (fun u hu => hb u (by simp [hu]))
        (by simp [List.length_cons] at hc; omega)
      unfold iterateChecks
      rw [hstep]
      simp only [hrest, mapSet_mapSet, List.replicate_succ]
      have heq : c + 1 + ts.length = c + (ts.length + 1) := by omega
      rw [heq]
      simp [List.length_cons, List.replicate_succ]

/-- C3: starting from no record, 50 checkRateLimit calls whose times
stay within the window opened by the first call are all allowed and
leave the counter at exactly RATE_LIMIT_MAX_REQUESTS; the 51st check in
the same window is denied and leaves the store (hence the counter)
unchanged; and a check made strictly after windowResetAt is treated as
a fresh window — it is allowed and the record becomes count 1 (0 reset
plus the increment) with windowResetAt = now + RATE_LIMIT_WINDOW_MS. -/
theorem rateLimiter_window (k : String) (t0 tFinal : Nat) (ts : List Nat)
    (hlen : ts.length = RATE_LIMIT_MAX_REQUESTS - 1)
    (hts : ∀ t ∈ ts, t ≤ t0 + RATE_LIMIT_WINDOW_MS)
    (htF : tFinal ≤ t0 + RATE_LIMIT_WINDOW_MS) :
    (iterateChecks [] k (t0 :: ts)).2 = List.replicate RATE_LIMIT_MAX_REQUESTS true ∧
    List.lookup k (iterateChecks [] k (t0 :: ts)).1 =
      some ⟨RATE_LIMIT_MAX_REQUESTS, t0 + RATE_LIMIT_WINDOW_MS⟩ ∧
    (checkRateLimit (iterateChecks [] k (t0 :: ts)).1 tFinal k).1.allowed = false ∧
    (checkRateLimit (iterateChecks [] k (t0 :: ts)).1 tFinal k).2 =
      (iterateChecks [] k (t0 :: ts)).1 ∧
    (∀ (rates : RateStore) (rec : RateRecord) (now : Nat),
        List.lookup k rates = some rec → rec.resetAt < now →
        (checkRateLimit rates now k).1.allowed = true ∧
        List.lookup k (checkRateLimit rates now k).2 =
          some ⟨1, now + RATE_LIMIT_WINDOW_MS⟩) := by
  have hlen49 : ts.length = 49 := by rw [hlen]; decide
  have hfirst : checkRateLimit [] t0 k =
      (⟨true, RATE_LIMIT_MAX_REQUESTS, t0 + RATE_LIMIT_WINDOW_MS⟩,
       [(k, ⟨1, t0 + RATE_LIMIT_WINDOW_MS⟩)]) := by
    unfold checkRateLimit
    have hno : ¬ t0 + RATE_LIMIT_WINDOW_MS < t0 := by omega
    simp [List.lookup, hno, mapSet, RATE_LIMIT_MAX_REQUESTS]
  have hrest := iterateChecks_allowed k ts [(k, ⟨1, t0 + RATE_LIMIT_WINDOW_MS⟩)] 1
    (t0 + RATE_LIMIT_WINDOW_MS) (by simp [List.lookup]) hts
    (by rw [hlen49]; decide)
  have hiter : iterateChecks [] k (t0 :: ts) =
      ([(k, ⟨RATE_LIMIT_MAX_REQUESTS, t0 + RATE_LIMIT_WINDOW_MS⟩)],
       List.replicate RATE_LIMIT_MAX_REQUESTS true) := by
    unfold iterateChecks
    rw [hfirst]
    simp only [hrest, mapSet, hlen49]
    simp [RATE_LIMIT_MAX_REQUESTS, List.replicate_succ]
  have hden : checkRateLimit [(k, ⟨RATE_LIMIT_MAX_REQUESTS, t0 + RATE_LIMIT_WINDOW_MS⟩)]
      tFinal k =
      (⟨false, 0, t0 + RATE_LIMIT_WINDOW_MS⟩,
       [(k, ⟨RATE_LIMIT_MAX_REQUESTS, t0 + RATE_LIMIT_WINDOW_MS⟩)]) := by
    unfold checkRateLimit
    have hno : ¬ t0 + RATE_LIMIT_WINDOW_MS < tFinal := by omega
    simp [List.lookup, hno, mapSet, RATE_LIMIT_MAX_REQUESTS]
  refine ⟨by rw [hiter], by rw [hiter]; simp [List.lookup], ?_, ?_, ?_⟩
  · rw [hiter, hden]
  · rw [hiter, hden]
  · intro rates rec now hl hreset
    have hstep : checkRateLimit rates now k =
        (⟨true, RATE_LIMIT_MAX_REQUESTS, now + RATE_LIMIT_WINDOW_MS⟩,
         mapSet rates k ⟨1, now + RATE_LIMIT_WINDOW_MS⟩) := by
      unfold checkRateLimit
      simp [hl, hreset, RATE_LIMIT_MAX_REQUESTS]
    rw [hstep]
    exact ⟨rfl, lookup_mapSet_eq rates k ⟨1, now + RATE_LIMIT_WINDOW_MS⟩⟩

/-- Witness for C3: fifty checks at time 0 are all allowed, the 51st is
denied, and a later-window check on a full record is allowed again. -/
theorem rateLimiter_window_witness :
    (iterateChecks [] "u" (0 :: List.replicate 49 0)).2 =
      List.replicate RATE_LIMIT_MAX_REQUESTS true ∧
    (checkRateLimit (iterateChecks [] "u" (0 :: List.replicate 49 0)).1 0 "u").1.allowed =
      false ∧
    (checkRateLimit [("u", ⟨50, 10⟩)] 11 "u").1.allowed = true := by
  have h := rateLimiter_window "u" 0 0 (List.replicate 49 0)
    (by decide)
    (by intro t ht; rw [List.eq_of_mem_replicate ht]; omega)
    (by omega)
  exact ⟨h.1, h.2.2.1, (h.2.2.2.2 [("u", ⟨50, 10⟩)] ⟨50, 10⟩ 11 (by rfl) (by decide)).1⟩

/-! ### Claim C4: follow-up classification with an active session -/

/-- C4: with an active session present, the router clears the session
and dispatches the download handler with the stored payload when the
lowercased trimmed text equals 1, equals download, or contains
download; clears the session and dispatches the email handler with the
stored payload when it equals 2, equals email, or contains email (and
is not a download selection, the download test running first); and for
any other text clears the session and reprocesses the message as a
brand-new query.  In every case the session slot is gone afterwards. -/
theorem routerFollowUp (store : StateStore) (now : Nat) (body fromNumber : String)
    (st : Session) (hb : jsTrim body ≠ "") (hf : fromNumber ≠ "")
    (hs : (getState store now fromNumber).1 = some st) :
    ((jsTrim (jsToLower body) = "1" ∨ jsTrim (jsToLower body) = "download" ∨
        jsIncludes (jsTrim (jsToLower body)) "download" = true) →
      handleMessageA store now body fromNumber =
        (ActionA.dispatchDownload fromNumber st,
         (clearState (getState store now fromNumber).2 fromNumber).2)) ∧
    ((jsTrim (jsToLower body) ≠ "1" ∧
        jsIncludes (jsTrim (jsToLower body)) "download" = false) →
      (jsTrim (jsToLower body) = "2" ∨ jsTrim (jsToLower body) = "email" ∨
        jsIncludes (jsTrim (jsToLower body)) "email" = true) →
      handleMessageA store now body fromNumber =
        (ActionA.dispatchEmail fromNumber st,
         (clearState (getState store now fromNumber).2 fromNumber).2)) ∧
    ((jsTrim (jsToLower body) ≠ "1" ∧
        jsIncludes (jsTrim (jsToLower body)) "download" = false) →
      (jsTrim (jsToLower body) ≠ "2" ∧
        jsIncludes (jsTrim (jsToLower body)) "email" = false) →
      handleMessageA store now body fromNumber =
        (ActionA.processNewQuery body fromNumber,
         (clearState (getState store now fromNumber).2 fromNumber).2)) ∧
    List.lookup (normalizePhoneNumber fromNumber)
      (clearState (getState store now fromNumber).2 fromNumber).2 = none := by
  have hnp : normalizePhoneNumber fromNumber ≠ "" := by
    intro h0
    unfold getState at hs
    simp [hf, h0] at hs
  rcases hg : getState store now fromNumber with ⟨o, store1⟩
  rw [hg] at hs
  simp only at hs
  subst hs
  have hclear : (clearState store1 fromNumber).2 =
      mapDelete store1 (normalizePhoneNumber fromNumber) := by
    unfold clearState
    simp [hf, hnp]
  have hmain : handleMessageA store now body fromNumber =
      (let nm := jsTrim (jsToLower body)
       if nm == "1" || nm == "download" || jsIncludes nm "download" then
         (ActionA.dispatchDownload fromNumber st, (clearState store1 fromNumber).2)
       else if nm == "2" || nm == "email" || jsIncludes nm "email" then
         (ActionA.dispatchEmail fromNumber st, (clearState store1 fromNumber).2)
       else
         (ActionA.processNewQuery body fromNumber, (clearState store1 fromNumber).2)) := by
    unfold handleMessageA
    rw [hg]
    simp [hb, hf]
  refine ⟨?_, ?_, ?_, ?_⟩
  · intro hdl
    have hdlb : (jsTrim (jsToLower body) == "1" ||
        jsTrim (jsToLower body) == "download" ||
        jsIncludes (jsTrim (jsToLower body)) "download") = true := by
      rcases hdl with h | h | h <;> simp [h]
    show handleMessageA store now body fromNumber =
      (ActionA.dispatchDownload fromNumber st, (clearState store1 fromNumber).2)
    rw [hmain]
    simp only [hdlb, if_true]
  · intro hnd hem
    have hdlb : (jsTrim (jsToLower body) == "1" ||
        jsTrim (jsToLower body) == "download" ||
        jsIncludes (jsTrim (jsToLower body)) "download") = false := by
      have h2 : (jsTrim (jsToLower body) == "download") = false := by
        by_cases hc : jsTrim (jsToLower body) = "download"
        · rw [hc] at hnd
          have : jsIncludes "download" "download" = true := by decide
          rw [this] at hnd
          cases hnd.2
        · exact beq_eq_false_iff_ne.mpr hc
      simp [beq_eq_false_iff_ne.mpr hnd.1, h2, hnd.2]
    have hemb : (jsTrim (jsToLower body) == "2" ||
        jsTrim (jsToLower body) == "email" ||
        jsIncludes (jsTrim (jsToLower body)) "email") = true := by
      rcases hem with h | h | h <;> simp [h]
    show handleMessageA store now body fromNumber =
      (ActionA.dispatchEmail fromNumber st, (clearState store1 fromNumber).2)
    rw [hmain]
    simp only [hdlb, hemb, Bool.false_eq_true, if_false, if_true]
  · intro hnd hne
    have hdlb : (jsTrim (jsToLower body) == "1" ||
        jsTrim (jsToLower body) == "download" ||
        jsIncludes (jsTrim (jsToLower body)) "download") = false := by
      have h2 : (jsTrim (jsToLower body) == "download") = false := by
        by_cases hc : jsTrim (jsToLower body) = "download"
        · rw [hc] at hnd
          have : jsIncludes "download" "download" = true := by decide
          rw [this] at hnd
          cases hnd.2
        · exact beq_eq_false_iff_ne.mpr hc
      simp [beq_eq_false_iff_ne.mpr hnd.1, h2, hnd.2]
    have hemb : (jsTrim (jsToLower body) == "2" ||
        jsTrim (jsToLower body) == "email" ||
        jsIncludes (jsTrim (jsToLower body)) "email") = false := by
      have h2 : (jsTrim (jsToLower body) == "email") = false := by
        by_cases hc : jsTrim (jsToLower body) = "email"
        · rw [hc] at hne
          have : jsIncludes "email" "email" = true := by decide
          rw [this] at hne
          cases hne.2
        · exact beq_eq_false_iff_ne.mpr hc
      simp [beq_eq_false_iff_ne.mpr hne.1, h2, hne.2]
    show handleMessageA store now body fromNumber =
      (ActionA.processNewQuery body fromNumber, (clearState store1 fromNumber).2)
    rw [hmain]
    simp only [hdlb, hemb, Bool.false_eq_true, if_false]
  · show List.lookup (normalizePhoneNumber fromNumber) (clearState store1 fromNumber).2 = none
    rw [hclear]
    exact lookup_mapDelete_eq store1 (normalizePhoneNumber fromNumber)

/-- Witness for C4 at the spec's scenario: an active recommendations
session for 15551234567 and the reply 1 dispatch the download handler
with the stored payload and leave the session slot empty. -/
theorem routerFollowUp_witness :
    handleMessageA
      [("15551234567", ⟨[("intent", JVal.str "recommendations"),
        ("vesselIdentifier", JVal.str "9481219")], 100, 300100⟩)]
      200 "1" "15551234567" =
    (ActionA.dispatchDownload "15551234567"
      ⟨[("intent", JVal.str "recommendations"),
        ("vesselIdentifier", JVal.str "9481219")], 100, 300100⟩, []) := by
  have h := routerFollowUp
    [("15551234567", ⟨[("intent", JVal.str "recommendations"),
      ("vesselIdentifier", JVal.str "9481219")], 100, 300100⟩)]
    200 "1" "15551234567"
    ⟨[("intent", JVal.str "recommendations"),
      ("vesselIdentifier", JVal.str "9481219")], 100, 300100⟩
    (by decide) (by decide) rfl
  exact h.1 (Or.inl rfl)

/-! ### Claim C6: which requests move the rate counter -/

/-- Counterexample to C6 as stated: a follow-up reply answering a
pending session does increment the rate counter, because the
rate-limit check runs on every inbound message before the session is
consulted.  Concretely, with an empty rate store and an active session,
the follow-up reply 1 is dispatched as a download selection and the
rate record for the sender afterwards holds count 1, not 0. -/
theorem followUpIncrementsCounter :
    (handleMessageB
        ⟨[], [("15551234567", ⟨[("intent", JVal.str "recommendations"),
          ("vesselIdentifier", JVal.str "9481219")], 100, 300100⟩)]⟩
        200 "1" "15551234567").1 =
      ActionB.dispatchDownload "15551234567"
        ⟨[("intent", JVal.str "recommendations"),
          ("vesselIdentifier", JVal.str "9481219")], 100, 300100⟩ ∧
    List.lookup "15551234567"
      (handleMessageB
        ⟨[], [("15551234567", ⟨[("intent", JVal.str "recommendations"),
          ("vesselIdentifier", JVal.str "9481219")], 100, 300100⟩)]⟩
        200 "1" "15551234567").2.rates =
      some ⟨1, 200 + RATE_LIMIT_WINDOW_MS⟩ :=
  ⟨rfl, rfl⟩

/-- C6 amended: the rate counter is incremented by every allowed
request — follow-up replies included, since the check precedes the
session lookup — and the handler's final rate store is exactly the
store produced by that single check; a rejected request leaves the rate
store unchanged (no increment), touches no session state, and only
produces the rate-limit reply. -/
theorem rateCounter_policy (sys : SysB) (now : Nat) (body fromNumber : String)
    (hb : jsTrim body ≠ "") (hf : fromNumber ≠ "") :
    (handleMessageB sys now body fromNumber).2.rates =
      (checkRateLimit sys.rates now fromNumber).2 ∧
    (∀ c r, List.lookup fromNumber sys.rates = some ⟨c, r⟩ → now ≤ r →
        c < RATE_LIMIT_MAX_REQUESTS →
        List.lookup fromNumber (checkRateLimit sys.rates now fromNumber).2 =
          some ⟨c + 1, r⟩) ∧
    ((checkRateLimit sys.rates now fromNumber).1.allowed = false →
        (checkRateLimit sys.rates now fromNumber).2 = sys.rates ∧
        (handleMessageB sys now body fromNumber).2.states = sys.states ∧
        (handleMessageB sys now body fromNumber).1 = ActionB.replyRateLimit) := by
  refine ⟨?_, ?_, ?_⟩
  · unfold handleMessageB
    simp only [if_neg hb, if_neg hf]
    cases hA : (checkRateLimit sys.rates now fromNumber).1.allowed with
    | false => simp [hA]
    | true =>
        simp only [hA, if_true]
        rcases hg : getState sys.states now fromNumber with ⟨o, states1⟩
        cases o with
        | none => rfl
        | some st =>
            by_cases hexp : isStateExpired now st = true
            · simp [hexp]
            · simp only [Bool.not_eq_true] at hexp
              simp only [hexp, Bool.false_eq_true, if_false]
              split
              · rfl
              · split <;> rfl
  · intro c r hl hle hlt
    unfold checkRateLimit
    have hno : ¬ r < now := by omega
    simp [hl, hno, hlt]
    exact lookup_mapSet_eq sys.rates fromNumber ⟨c + 1, r⟩
  · intro hA
    have hstore : (checkRateLimit sys.rates now fromNumber).2 = sys.rates := by
      unfold checkRateLimit at hA ⊢
      cases hL : List.lookup fromNumber sys.rates with
      | none =>
          exfalso
          have hno : ¬ now + RATE_LIMIT_WINDOW_MS < now := by omega
          simp [hL, hno, RATE_LIMIT_MAX_REQUESTS] at hA
      | some rec =>
          by_cases hR : rec.resetAt < now
          · exfalso
            simp [hL, hR, RATE_LIMIT_MAX_REQUESTS] at hA
          · simp only [hL, Option.getD_some, if_neg hR] at hA ⊢
            simp only [decide_eq_false_iff_not] at hA
            have hcnt : ¬ rec.count < RATE_LIMIT_MAX_REQUESTS := by
              intro hc
              simp [hc] at hA
            simp only [decide_eq_true_eq, if_neg hcnt]
            exact mapSet_self sys.rates fromNumber rec hL
    refine ⟨hstore, ?_, ?_⟩ <;>
      · unfold handleMessageB
        simp [hb, hf, hA]

/-- Witness for the amended C6 at a concrete denied request: a full
window record leads to the rate-limit reply with both stores
untouched. -/
theorem rateCounter_policy_witness :
    (handleMessageB ⟨[("15551234567", ⟨50, 5000⟩)], []⟩ 100 "hello" "15551234567").1 =
      ActionB.replyRateLimit ∧
    (handleMessageB ⟨[("15551234567", ⟨50, 5000⟩)], []⟩ 100 "hello" "15551234567").2.states =
      ([] : StateStore) ∧
    (checkRateLimit [("15551234567", ⟨50, 5000⟩)] 100 "15551234567").2 =
      [("15551234567", ⟨50, 5000⟩)] := by
  have h := rateCounter_policy ⟨[("15551234567", ⟨50, 5000⟩)], []⟩ 100 "hello" "15551234567"
    (by decide) (by decide)
  have h3 := h.2.2 (by rfl)
  exact ⟨h3.2.2, h3.2.1, h3.1⟩

/-! ### Claim C1: the findByName pipeline -/

theorem fuzzyLoop_from {α : Type} (f : α → Nat) (vs : List α) :
    ∀ b : α, vs.foldl (fuzzyStep f) (some (b, f b)) =
      some (bestFrom f b vs, f (bestFrom f b vs)) := by
  induction vs with
  | nil => intro b; rfl
  | cons v vs ih =>
      intro b
      rw [List.foldl_cons]
      by_cases h : f v < f b
      · have hstep : fuzzyStep f (some (b, f b)) v = some (v, f v) := by
          simp [fuzzyStep, h]
        rw [hstep, ih v]
        simp [bestFrom, h]
      · have hstep : fuzzyStep f (some (b, f b)) v = some (b, f b) := by
          simp [fuzzyStep, h]
        rw [hstep, ih b]
        simp [bestFrom, h]

theorem minDist_le {α : Type} (f : α → Nat) :
    ∀ (vs : List α) (m : Nat), minDist f vs = some m → ∀ v ∈ vs, m ≤ f v := by
  intro vs
  induction vs with
  | nil => intro m h v hv; cases hv
  | cons v vs ih =>
      intro m h w hw
      cases hmv : minDist f vs with
      | none =>
          cases vs with
          | nil =>
              simp [minDist] at h
              rcases List.mem_singleton.mp hw with rfl
              omega
          | cons x xs => simp [minDist] at hmv
      | some mv =>
          simp only [minDist, hmv, Option.some.injEq] at h
          rcases List.mem_cons.mp hw with rfl | hw'
          · rw [← h]
            exact Nat.min_le_left _ _
          · have := ih mv hmv w hw'
            have hle : m ≤ mv := by rw [← h]; exact Nat.min_le_right _ _
            omega

theorem findMin_bestFrom {α : Type} (f : α → Nat) :
    ∀ (vs : List α) (b : α) (M : Nat), minDist f (b :: vs) = some M →
    List.find? (fun w => f w == M) (b :: vs) = some (bestFrom f b vs) := by
  intro vs
  induction vs with
  | nil =>
      intro b M h
      simp only [minDist, Option.some.injEq] at h
      subst h
      simp [List.find?, bestFrom]
  | cons v ws ih =>
      intro b M h
      have hfb' : f (if f v < f b then v else b) = Nat.min (f b) (f v) := by
        by_cases hcmp : f v < f b
        · rw [if_pos hcmp]
          exact (Nat.min_eq_right (Nat.le_of_lt hcmp)).symm
        · rw [if_neg hcmp]
          exact (Nat.min_eq_left (Nat.le_of_not_lt hcmp)).symm
      have hM2 : minDist f ((if f v < f b then v else b) :: ws) = some M := by
        cases hws : minDist f ws with
        | none =>
            simp only [minDist, hws, Option.some.injEq] at h ⊢
            rw [hfb']
            exact h
        | some mw =>
            simp only [minDist, hws, Option.some.injEq] at h ⊢
            rw [hfb']
            rw [← h]
            exact Nat.min_assoc _ _ _
      have hbf : bestFrom f b (v :: ws) = bestFrom f (if f v < f b then v else b) ws := rfl
      rw [hbf]
      have hIH := ih (if f v < f b then v else b) M hM2
      have hMle_b : M ≤ f b := minDist_le f (b :: v :: ws) M h b (by simp)
      have hMle_v : M ≤ f v := minDist_le f (b :: v :: ws) M h v (by simp)
      by_cases hfbM : f b = M
      · have hpred : (fun w => f w == M) b = true := by simp [hfbM]
        have hr1 := @List.find?_cons_of_pos _ (fun w => f w == M) b (v :: ws) hpred
        rw [hr1]
        have hnb : ¬ f v < f b := by omega
        rw [if_neg hnb] at hIH ⊢
        have hr2 := @List.find?_cons_of_pos _ (fun w => f w == M) b ws hpred
        rw [hr2] at hIH
        exact hIH
      · have hpred : ¬ (fun w => f w == M) b = true := by simp [hfbM]
        have hr1 := @List.find?_cons_of_neg _ (fun w => f w == M) b (v :: ws) hpred
        rw [hr1]
        by_cases hcmp : f v < f b
        · rw [if_pos hcmp] at hIH ⊢
          exact hIH
        · rw [if_neg hcmp] at hIH ⊢
          have hfvM : ¬ (fun w => f w == M) v = true := by
            simp only [beq_iff_eq]
            omega
          have hr2 := @List.find?_cons_of_neg _ (fun w => f w == M) v ws hfvM
          rw [hr2]
          have hr3 := @List.find?_cons_of_neg _ (fun w => f w == M) b ws hpred
          rw [hr3] at hIH
          exact hIH

theorem fuzzyLoop_spec {α : Type} (f : α → Nat) (vs : List α) :
    (match fuzzyLoop f vs with
     | some (b, bd) => if bd ≤ 2 then some b else none
     | none => none) =
    (match minDist f vs with
     | some m => if m ≤ 2 then List.find? (fun v => f v == m) vs else none
     | none => none) := by
  cases vs with
  | nil => rfl
  | cons b rest =>
      have h1 : fuzzyLoop f (b :: rest) =
          some (bestFrom f b rest, f (bestFrom f b rest)) := by
        unfold fuzzyLoop
        rw [List.foldl_cons]
        exact fuzzyLoop_from f rest b
      obtain ⟨M, hM⟩ : ∃ M, minDist f (b :: rest) = some M := ⟨_, rfl⟩
      have hfind := findMin_bestFrom f rest b M hM
      have hfB : f (bestFrom f b rest) = M := by
        have := List.find?_some hfind
        simpa using this
      rw [h1, hM]
      simp only
      rw [hfB, hfind]

/-- C1: getVesselByName computes exactly the staged pipeline the
specification describes — normalize the query by trimming and
uppercasing, first an exact match against the uppercased canonical
names, otherwise the first record related to the query by substring
containment in either direction, otherwise the minimum-Levenshtein
candidate accepted only when its distance is at most 2, ties broken by
directory order with the first minimal match winning, otherwise
not-found (empty or blank queries are not-found, per the
specification's failure clause for empty input). -/
theorem getVesselByName_matches_spec (vessels : List VesselRecord) (name : String) :
    getVesselByName vessels name = findByNameSpec vessels name := by
  unfold getVesselByName findByNameSpec
  by_cases h1 : name = ""
  · simp [h1]
  · simp only [h1, if_false]
    by_cases h2 : jsToUpper (jsTrim name) = ""
    · simp [h2]
    · simp only [h2, if_false, if_neg h2]
      cases hE : vessels.find? (fun v => jsToUpper v.name == jsToUpper (jsTrim name)) with
      | some v => simp [hE]
      | none =>
          simp only [hE]
          cases hP : vessels.find? (fun v =>
              jsIncludes (jsToUpper v.name) (jsToUpper (jsTrim name)) ||
              jsIncludes (jsToUpper (jsTrim name)) (jsToUpper v.name)) with
          | some v => simp [hP]
          | none =>
              simp only [hP]
              clear hE hP
              set f : VesselRecord → Nat :=
                fun v => levDistance (jsToUpper (jsTrim name)).data (jsToUpper v.name).data
                with hfdef
              cases vessels with
              | nil => rfl
              | cons b rest =>
                  have hloop : fuzzyLoop f (b :: rest) =
                      some (bestFrom f b rest, f (bestFrom f b rest)) := by
                    unfold fuzzyLoop
                    rw [List.foldl_cons]
                    exact fuzzyLoop_from f rest b
                  obtain ⟨M, hM⟩ : ∃ M, minDist f (b :: rest) = some M := ⟨_, rfl⟩
                  have hfind := findMin_bestFrom f rest b M hM
                  have hfB : f (bestFrom f b rest) = M := by
                    simpa using List.find?_some hfind
                  rw [hloop, hM]
                  simp only
                  rw [hfB, hfind]

/-! ### Concrete scenarios from the specification -/

/-- A one-substitution typo resolves through the fuzzy stage at
distance 1 against the default directory. -/
theorem fuzzyTypoScenario :
    getVesselByName DEFAULT_VESSELS "GCL YAMONA" = some ⟨"GCL YAMUNA", "9481219"⟩ := by
  rfl

/-- A query with no close match in the directory is not-found. -/
theorem noCloseMatchScenario :
    getVesselByName DEFAULT_VESSELS "XYZ" = none := by
  rfl

/-- Name lookups are case-insensitive and accept partial names. -/
theorem partialNameScenario :
    getVesselByName DEFAULT_VESSELS "gcl yamuna" = some ⟨"GCL YAMUNA", "9481219"⟩ ∧
    getVesselByName DEFAULT_VESSELS "YAMUNA" = some ⟨"GCL YAMUNA", "9481219"⟩ := by
  exact ⟨rfl, rfl⟩
